import Mathlib

/-!
# Verification of the compensation-aggregator crawl core

Shallow embedding, in Lean 4, of the job-posting crawler of this repository:
`scrape.py` (link classification `is_job_posting_link`, job extraction
`extract_job_postings`, URL normalisation `remove_fragment`, the recursive
crawl `recurse_scrape` / `scrape_website`), `html_to_markdown.py`
(`convert_to_markdown` / `fallback_html_to_markdown`) and the scraping
defaults of `config.py`.

External collaborators (the Selenium browser, the OpenAI oracle, the Jina
conversion service, `requests`, `json.loads`, BeautifulSoup) are modelled as
inputs: a `World` maps each URL to the page the browser would render there
(`none` = navigation raises), each prompt to the oracle call outcome, and
each markdown chunk to the outcome of parsing the oracle's extraction
answer.  The Python functions of the repository itself are translated
statement by statement.

`urllib.parse.urlparse` / `urlunparse` (CPython 3.11) are embedded over
`List Char` because `remove_fragment` and the crawl's same-domain filter
delegate to them, and their exact behaviour (including the `ValueError`
raised on a mismatched square bracket in the authority) decides claims about
URL normalisation.  All of its `ValueError` paths are embedded: the
mismatched-bracket check, the bracketed-host validation of CPython 3.11.4+
(`_check_bracketed_host`, including `ipaddress`'s IPv4/IPv6 string
parsing), and the NFKC netloc check (`_checknetloc`, reduced — exactly, see
its doc comment — to a finite character set).  One deliberate
simplification: `str.strip` / `str.upper` / `str.lower` act on ASCII
characters only (`pyStrip`, `pyUpper`, `pyLower` below).
-/

/-! ## Python string primitives -/

/-- Split a list at the first occurrence of `c`: Python `s.split(c, 1)` when
`c` occurs, `none` when it does not. -/
def pySplitFirst (c : Char) : List Char → Option (List Char × List Char)
  | [] => none
  | a :: t =>
    if a = c then some ([], t)
    else
      match pySplitFirst c t with
      | none => none
      | some (p, s) => some (a :: p, s)

/-- Python substring test `needle in haystack`. -/
def pyContainsSub (needle haystack : List Char) : Bool :=
  match haystack with
  | [] => needle.isEmpty
  | _ :: t => needle.isPrefixOf haystack || pyContainsSub needle t

/-- Python `needle in haystack` on strings. -/
def strContains (haystack needle : String) : Bool :=
  pyContainsSub needle.toList haystack.toList

/-- Python `\s` / `str.strip` whitespace on ASCII (`str.strip` also strips
some Unicode spaces; no theorem involves those). -/
def isPySpace (c : Char) : Bool :=
  c == ' ' || c == '\t' || c == '\n' || c == '\r' || c == '\x0b' || c == '\x0c'

/-- Python `str.strip()` on a character list. -/
def pyTrimL (l : List Char) : List Char :=
  ((l.dropWhile isPySpace).reverse.dropWhile isPySpace).reverse

/-- Python `str.strip()`. -/
def pyStrip (s : String) : String := String.mk (pyTrimL s.data)

/-- Python `str.upper()` on ASCII. -/
def pyUpper (s : String) : String := String.mk (s.data.map Char.toUpper)

/-- Python `str.lower()` on ASCII. -/
def pyLower (s : String) : String := String.mk (s.data.map Char.toLower)

/-- Python `str.startswith(pre)`. -/
def pyStartswith (s pre : String) : Bool := pre.data.isPrefixOf s.data

/-! ## Embedding of `urllib.parse` (CPython 3.11)

`urlsplit` removes the unsafe bytes `\t\r\n`, detects a scheme (first `:`
preceded by a letter and scheme characters only), splits the authority after
`//` at the first of `/?#` (raising `ValueError` on a mismatched `[`/`]`),
then splits fragment at the first `#` and query at the first `?`.
`urlparse` additionally splits `;params` from the path for schemes in
`uses_params`.  `urlunparse`/`urlunsplit` reassemble. -/

def scheme_chars : List Char :=
  "abcdefghijklmnopqrstuvwxyzABCDEFGHIJKLMNOPQRSTUVWXYZ0123456789+-.".toList

def uses_params : List String :=
  ["", "ftp", "hdl", "prospero", "http", "imap", "https", "shttp", "rtsp",
   "rtspu", "sip", "sips", "mms", "sftp", "tel"]

def uses_netloc : List String :=
  ["", "ftp", "http", "gopher", "nntp", "telnet", "imap", "wais", "file",
   "mms", "https", "shttp", "snews", "prospero", "rtsp", "rtspu", "rsync",
   "svn", "svn+ssh", "sftp", "nfs", "git", "git+ssh", "ws", "wss"]

def isSchemeChar (c : Char) : Bool := c ∈ scheme_chars

/-- CPython `urlsplit` scheme detection: `i = url.find(':')`;
`if i > 0 and url[0].isascii() and url[0].isalpha()` and every character
before the colon is a scheme character, the scheme (lower-cased) is split
off.  (`Char.isAlpha` is exactly ASCII `[A-Za-z]`, which coincides with
Python's `isascii() and isalpha()`.) -/
def schemeSplit (url : List Char) : List Char × List Char :=
  match pySplitFirst ':' url with
  | none => ([], url)
  | some (pre, post) =>
    match pre with
    | [] => ([], url)
    | c0 :: _ =>
      if c0.isAlpha ∧ pre.all isSchemeChar then (pre.map Char.toLower, post)
      else ([], url)

def isNetlocDelim (c : Char) : Bool := c == '/' || c == '?' || c == '#'

/-- CPython `_splitnetloc(url, 2)` applied to `url.drop 2`: the authority
runs until the first of `/?#`. -/
def splitnetloc (l : List Char) : List Char × List Char :=
  (l.takeWhile (fun c => !(isNetlocDelim c)), l.dropWhile (fun c => !(isNetlocDelim c)))

def splitFragment (l : List Char) : List Char × List Char :=
  match pySplitFirst '#' l with
  | none => (l, [])
  | some (a, b) => (a, b)

def splitQuery (l : List Char) : List Char × List Char :=
  match pySplitFirst '?' l with
  | none => (l, [])
  | some (a, b) => (a, b)

/-- Python `s.split(c)` (full split on a single character). -/
def pySplitChar (c : Char) : List Char → List (List Char)
  | [] => [[]]
  | a :: t =>
    if a = c then [] :: pySplitChar c t
    else
      match pySplitChar c t with
      | [] => [[a]]
      | p :: ps => (a :: p) :: ps

/-- Python `l.partition(c)[2]`: everything after the first `c` (`""` when
`c` is absent). -/
def partitionAfter (c : Char) (l : List Char) : List Char :=
  match pySplitFirst c l with
  | none => []
  | some (_, rest) => rest

/-- Python `l.partition(c)[0]`: everything before the first `c` (`l` when
`c` is absent). -/
def partitionBefore (c : Char) (l : List Char) : List Char :=
  match pySplitFirst c l with
  | none => l
  | some (pre, _) => pre

/-- Python `c.isascii() and c.isdigit()`. -/
def isAsciiDigit (c : Char) : Bool := c.isDigit

/-- Membership in `ipaddress`'s `_HEX_DIGITS` (`0-9a-fA-F`). -/
def isHexDigitPy (c : Char) : Bool :=
  c.isDigit || ('a' ≤ c && c ≤ 'f') || ('A' ≤ c && c ≤ 'F')

/-- Decimal value of an all-digit string (callers have already checked the
digits). -/
def decimalVal (l : List Char) : Nat :=
  l.foldl (fun acc c => acc * 10 + (c.toNat - '0'.toNat)) 0

/-- `ipaddress._BaseV4._parse_octet` (CPython 3.11) succeeds: non-empty,
ASCII digits only, at most 3 characters, no leading zero except `"0"`
itself, and value at most 255. -/
def valid_ipv4_octet (o : List Char) : Bool :=
  !o.isEmpty && o.all isAsciiDigit && decide (o.length ≤ 3)
    && !(decide (o ≠ ['0']) && decide (o.headD ' ' = '0'))
    && decide (decimalVal o ≤ 255)

/-- The string constructor of `ipaddress.IPv4Address` succeeds: no `/`,
non-empty, and exactly four valid octets around `.`. -/
def IPv4Address_ok (s : List Char) : Bool :=
  decide ('/' ∉ s) && !s.isEmpty
    && (let octets := pySplitChar '.' s
        octets.length == 4 && octets.all valid_ipv4_octet)

/-- `ipaddress._BaseV6._parse_hextet` succeeds: hex digits only, at most 4
of them, and (because `int(h, 16)` rejects `""`) at least one. -/
def valid_hextet (h : List Char) : Bool :=
  h.all isHexDigitPy && decide (h.length ≤ 4) && !h.isEmpty

/-- The skip-index/hextet logic of `_BaseV6._ip_int_from_string` after the
IPv4-suffix replacement: at most 9 parts; among the internal parts at most
one may be empty (the `::`); an empty first (resp. last) part is permitted
only when the `::` is at position 1 (resp. `len - 2`); with a `::` at least
one hextet must have been skipped, without one exactly 8 parts are
required; and every part that is actually parsed is a valid hextet. -/
def ipv6_parts_ok (parts : List (List Char)) : Bool :=
  if 9 < parts.length then false
  else
    let n := parts.length
    let empties := (List.range n).filter
      (fun i => decide (1 ≤ i) && decide (i + 2 ≤ n) && decide (parts.getD i [] = []))
    match empties with
    | [] =>
      n == 8 && !(parts.getD 0 []).isEmpty && !(parts.getD (n - 1) []).isEmpty
        && parts.all valid_hextet
    | [skip] =>
      let hd_empty := (parts.getD 0 []).isEmpty
      let tl_empty := (parts.getD (n - 1) []).isEmpty
      let parts_hi := if hd_empty then skip - 1 else skip
      let parts_lo0 := n - skip - 1
      let parts_lo := if tl_empty then parts_lo0 - 1 else parts_lo0
      if hd_empty && decide (parts_hi ≠ 0) then false
      else if tl_empty && decide (parts_lo ≠ 0) then false
      else if decide (8 ≤ parts_hi + parts_lo) then false
      else
        (parts.take parts_hi).all valid_hextet
          && (parts.drop (n - parts_lo)).all valid_hextet
    | _ => false

/-- `_BaseV6._ip_int_from_string` succeeds: non-empty, at least 3
colon-separated parts, a `.`-containing last part must be a valid IPv4
address (CPython then replaces it by two synthesised hextets, always valid
and non-empty, modelled by the placeholder `"0"`), then the part check
above. -/
def valid_ipv6_noscope (s : List Char) : Bool :=
  if s.isEmpty then false
  else
    let parts0 := pySplitChar ':' s
    if parts0.length < 3 then false
    else
      let lastP := (parts0.getLast?).getD []
      if '.' ∈ lastP then
        if IPv4Address_ok lastP then
          ipv6_parts_ok (parts0.dropLast ++ [['0'], ['0']])
        else false
      else ipv6_parts_ok parts0

/-- The string constructor of `ipaddress.IPv6Address` succeeds: no `/`; an
optional scope id after the first `%` must be non-empty and contain no
further `%`; and the address part must parse. -/
def IPv6Address_ok (s : List Char) : Bool :=
  decide ('/' ∉ s) &&
    (match pySplitFirst '%' s with
     | none => valid_ipv6_noscope s
     | some (addr, scope) =>
       !scope.isEmpty && decide ('%' ∉ scope) && valid_ipv6_noscope addr)

/-- `re.match(r"\Av[a-fA-F0-9]+\..+\Z", h)` succeeds.  Hex digits and `.`
are disjoint, so the greedy hex scan needs no backtracking; the regex `.`
matches every character except a newline. -/
def ipvfuture_ok (h : List Char) : Bool :=
  match h with
  | 'v' :: rest =>
    let hexrun := rest.takeWhile isHexDigitPy
    !hexrun.isEmpty &&
      (match rest.drop hexrun.length with
       | '.' :: tail => !tail.isEmpty && decide ('\n' ∉ tail)
       | _ => false)
  | _ => false

/-- `urllib.parse._check_bracketed_host` (CPython 3.11.4+) does not raise:
a hostname starting with `v` must match the IPvFuture pattern; any other
hostname is passed to `ipaddress.ip_address`, which tries IPv4 first (a
valid IPv4 address is then rejected as "cannot be in brackets") and IPv6
second, raising when neither fits — so a non-`v` hostname passes exactly
when it is a valid IPv6 address and not a valid IPv4 one (no string is
both, since IPv6 requires colons and IPv4 forbids them). -/
def check_bracketed_host_ok (h : List Char) : Bool :=
  match h with
  | 'v' :: _ => ipvfuture_ok h
  | _ => !(IPv4Address_ok h) && IPv6Address_ok h

/-- The 19 characters whose NFKC normal form contains one of `/?#@:`,
computed exhaustively from the Unicode database CPython uses. -/
def nfkc_forbidden_expanding : List Char :=
  ['\u2047', '\u2048', '\u2049', '\u2100', '\u2101', '\u2105', '\u2106',
   '\u2A74', '\uFE13', '\uFE16', '\uFE55', '\uFE56', '\uFE5F', '\uFE6B',
   '\uFF03', '\uFF0F', '\uFF1A', '\uFF1F', '\uFF20']

/-- `urllib.parse._checknetloc` does not raise.  CPython raises iff the
netloc (with `@:#?` removed) is changed by NFKC normalisation and the
normal form contains one of `/?#@:`.  Those five ASCII characters cannot
already be in the stripped netloc (`@:#?` were removed and `/?#` terminate
the authority), cannot be produced or consumed by canonical composition
(no canonical decomposition contains them), and the removal only drops
ASCII characters — so the raise happens exactly when the netloc contains a
character whose own NFKC form contains one of them, i.e. a member of
`nfkc_forbidden_expanding` (the empty/all-ASCII early returns are subsumed,
those characters being non-ASCII). -/
def checknetloc_ok (netloc : List Char) : Bool :=
  netloc.all (fun c => !(nfkc_forbidden_expanding.contains c))

structure SplitRes where
  scheme : List Char
  netloc : List Char
  path : List Char
  query : List Char
  fragment : List Char
deriving DecidableEq, Repr

/-- WHATWG C0 control or space, the character class CPython 3.11 `urlsplit`
lstrips from the URL. -/
def isWhatwgC0OrSpace (c : Char) : Bool := decide (c.val ≤ 32)

/-- CPython 3.11 (3.11.4+) `urlsplit` with default arguments; `.error ()`
models the `ValueError`s it raises: a mismatched bracket in the authority,
an invalid bracketed host (`_check_bracketed_host`), and a netloc whose
NFKC normalisation introduces a separator (`_checknetloc`; the call in
CPython comes after the fragment/query splits and depends only on the
netloc, which is `""` — never raising — in the no-authority branch). -/
def urlsplitL (url0 : List Char) : Except Unit SplitRes :=
  let url1 :=
    (url0.dropWhile isWhatwgC0OrSpace).filter
      (fun c => !(c == '\t' || c == '\r' || c == '\n'))
  let sp := schemeSplit url1
  let scheme := sp.1
  let url2 := sp.2
  if url2.take 2 = ['/', '/'] then
    let nl := splitnetloc (url2.drop 2)
    let netloc := nl.1
    let url3 := nl.2
    if ('[' ∈ netloc ∧ ']' ∉ netloc) ∨ (']' ∈ netloc ∧ '[' ∉ netloc) then
      .error ()
    else if ('[' ∈ netloc ∧ ']' ∈ netloc)
        ∧ check_bracketed_host_ok (partitionBefore ']' (partitionAfter '[' netloc)) = false then
      .error ()
    else if checknetloc_ok netloc = false then
      .error ()
    else
      let fr := splitFragment url3
      let q := splitQuery fr.1
      .ok ⟨scheme, netloc, q.1, q.2, fr.2⟩
  else
    if checknetloc_ok [] = false then
      .error ()
    else
      let fr := splitFragment url2
      let q := splitQuery fr.1
      .ok ⟨scheme, [], q.1, q.2, fr.2⟩

structure ParseRes where
  scheme : List Char
  netloc : List Char
  path : List Char
  params : List Char
  query : List Char
  fragment : List Char
deriving DecidableEq, Repr

/-- CPython `_splitparams`: split at the first `;` at or after the last `/`
(or the first `;` at all when there is no `/`). -/
def splitparams (l : List Char) : List Char × List Char :=
  if '/' ∈ l then
    let pre := (l.reverse.dropWhile (fun c => !(c == '/'))).reverse
    let suf := (l.reverse.takeWhile (fun c => !(c == '/'))).reverse
    match pySplitFirst ';' suf with
    | none => (l, [])
    | some (a, b) => (pre ++ a, b)
  else
    match pySplitFirst ';' l with
    | none => (l, [])
    | some (a, b) => (a, b)

/-- CPython 3.11 `urlparse`. -/
def urlparseL (url : List Char) : Except Unit ParseRes :=
  match urlsplitL url with
  | .error e => .error e
  | .ok r =>
    if String.mk r.scheme ∈ uses_params ∧ ';' ∈ r.path then
      let pp := splitparams r.path
      .ok ⟨r.scheme, r.netloc, pp.1, pp.2, r.query, r.fragment⟩
    else
      .ok ⟨r.scheme, r.netloc, r.path, [], r.query, r.fragment⟩

/-- CPython `urlunsplit`. -/
def urlunsplitL (scheme netloc path query fragment : List Char) : List Char :=
  let url := path
  let url :=
    if netloc ≠ [] ∨ (scheme ≠ [] ∧ String.mk scheme ∈ uses_netloc ∧ url.take 2 ≠ ['/', '/']) then
      let url := if url ≠ [] ∧ url.take 1 ≠ ['/'] then '/' :: url else url
      '/' :: '/' :: (netloc ++ url)
    else url
  let url := if scheme ≠ [] then scheme ++ ':' :: url else url
  let url := if query ≠ [] then url ++ '?' :: query else url
  if fragment ≠ [] then url ++ '#' :: fragment else url

/-- CPython `urlunparse`. -/
def urlunparseL (r : ParseRes) : List Char :=
  let url := if r.params ≠ [] then r.path ++ ';' :: r.params else r.path
  urlunsplitL r.scheme r.netloc url r.query r.fragment

/-- `True` iff `urlsplit` (hence `urlparse`) does not raise on this input. -/
def urlparse_ok (l : List Char) : Bool :=
  match urlsplitL l with
  | .ok _ => true
  | .error _ => false

/-- `scrape.py` lines 333-344, `remove_fragment`: strip the URL fragment via
`urlunparse(urlparse(href)._replace(fragment=""))`; if parsing raises, log
and return the original URL. -/
def remove_fragment (href : String) : String :=
  match urlparseL href.toList with
  | .ok r => String.mk (urlunparseL { r with fragment := [] })
  | .error _ => href

/-- `urlparse(u).netloc`, propagating the `ValueError` (`scrape.py` lines
430 and 489 call `urlparse` outside any per-link handler). -/
def urlparse_netloc (u : String) : Except Unit String :=
  match urlparseL u.toList with
  | .ok r => .ok (String.mk r.netloc)
  | .error e => .error e

/-- `scrape.py` lines 321-325: `domain = urlparse(start_url).netloc`,
defaulting to `""` when parsing raises. -/
def domainOf (start_url : String) : String :=
  match urlparse_netloc start_url with
  | .ok n => n
  | .error _ => ""

/-! ## Link classification (`scrape.py` lines 70-123)

The OpenAI client is an external collaborator: an oracle maps a prompt to
either the completion text (`.ok`) or a raised exception (`.error`).
`call_openai_api` returns the stripped completion and converts every raised
exception into `""`.  `is_job_posting_link` reads the anchor (which can
itself raise: `LinkEval.stale` models `StaleElementReferenceException`,
`LinkEval.exn` any other exception while evaluating the link), short-cuts
links with neither text nor href, otherwise builds the classification
prompt, consults the oracle and compares the stripped, upper-cased answer
with `"YES"`.  Both exception handlers return `false`, so the function is
total: classification never raises out of the per-link call, which the Lean
type `… → Bool` makes structural. -/

/-- Outcome of reading an anchor element: its `text` and `get_attribute("href")`,
or one of the exceptions the handlers at `scrape.py` lines 118-123 catch. -/
inductive LinkEval where
  | ok (text : String) (href : Option String)
  | stale
  | exn (msg : String)

/-- `scrape.py` lines 78-91, `call_openai_api`: the stripped completion, or
`""` when the API call raised. -/
def call_openai_api : Except String String → String
  | .ok s => pyStrip s
  | .error _ => ""

/-- `LINK_CLASSIFICATION_TEMPLATE.format(link_text, link_href)` (`scrape.py`
lines 70-76, 111-114).  The oracle below is universally quantified in every
theorem, so only the injective embedding of the two fields matters; the
surrounding instruction text is abbreviated. -/
def link_prompt (link_text link_href : String) : String :=
  "You are a helpful AI assistant. Determine if the following link likely leads to a job posting.\n"
    ++ "Respond ONLY with YES if it is likely a job, or the empty string if not.\n\n"
    ++ "Here is the link text: \"" ++ link_text ++ "\"\n"
    ++ "And here is the link URL: \"" ++ link_href ++ "\""

/-- `scrape.py` lines 93-123, `is_job_posting_link`. -/
def is_job_posting_link (oracle : String → Except String String) : LinkEval → Bool
  | .stale => false
  | .exn _ => false
  | .ok t h =>
    let link_text := pyStrip t
    let link_href := h.getD ""
    if link_text = "" ∧ link_href = "" then false
    else
      let prompt := link_prompt link_text link_href
      decide (pyUpper (pyStrip (call_openai_api (oracle prompt))) = "YES")

/-! ## Job extraction (`scrape.py` lines 130-199)

The extraction pipeline per chunk is: strip `[text](url)` anchors, prompt
the oracle, clean code fences, `json.loads` the answer.  All of that up to
and including the parse is external (oracle + `json`), so a chunk is
modelled by the outcome of that parse: `.error` is a `JSONDecodeError`
(the chunk is dropped with a warning), `.ok j` the parsed JSON value.
`extract_job_postings` itself then does exactly: wrap a dict into a
one-element list, extend the accumulator with a list, ignore anything else.
No key of any emitted object is inspected, added or defaulted. -/

inductive Json where
  | null
  | bool (b : Bool)
  | num (n : Int)
  | str (s : String)
  | arr (elems : List Json)
  | obj (kvs : List (String × Json))

/-- `scrape.py` lines 186-194: what one chunk contributes to `all_postings`. -/
def json_loads_postings : Except String Json → List Json
  | .error _ => []
  | .ok (.obj kvs) => [.obj kvs]
  | .ok (.arr elems) => elems
  | .ok _ => []

/-- `scrape.py` lines 161-199, `extract_job_postings`: concatenation of the
per-chunk contributions, preserving chunk order. -/
def extract_job_postings (chunks : List (Except String Json)) : List Json :=
  (chunks.map json_loads_postings).flatten

/-- The six canonical keys of a JobPosting (`scrape.py` lines 133-141). -/
def CANONICAL_KEYS : List String :=
  ["title", "description", "salary_range", "responsibilities", "location",
   "qualification"]

def Json.isString : Json → Bool
  | .str _ => true
  | _ => false

/-- Stated from the spec, not the code (the property under test in C2): a
record carries exactly the six canonical keys, each mapped to a string. -/
def spec_canonical_posting : Json → Bool
  | .obj kvs =>
      (CANONICAL_KEYS.all fun k => (kvs.filter fun kv => kv.1 == k).length == 1)
        && (kvs.all fun kv => CANONICAL_KEYS.contains kv.1 && kv.2.isString)
  | _ => false

/-- An oracle answer that already satisfies the six-key shape the extraction
prompt requests: a canonical object, a list of canonical objects, or a
scalar (which contributes no posting). -/
def response_canonical : Json → Bool
  | .obj kvs => spec_canonical_posting (.obj kvs)
  | .arr elems => elems.all spec_canonical_posting
  | _ => true

/-! ## Content conversion (`html_to_markdown.py`)

`requests.get` (with retries) is external: a `FetchResult` is the outcome of
`_get_with_retry()` — the response text on success, a `RequestException`
re-raised after the third attempt, or any other exception.  BeautifulSoup's
`soup.get_text(separator='\n')` on the fallback fetch is likewise an
external input (`.error` = the parse raised).  Everything after `get_text`
(lines 130-160 of `html_to_markdown.py`) is pure Python and is embedded
below.  Python's `\s` and `str.splitlines` match some further Unicode
characters (`\v`, `\f`, …) not handled here; no theorem depends on them. -/

inductive FetchResult where
  | ok (text : String)
  | reqError (msg : String)
  | otherError (msg : String)
deriving DecidableEq, Repr

/-- `html_to_markdown.py` line 78: `if content and not content.startswith("Error:")`. -/
def jina_ok (content : String) : Bool :=
  content ≠ "" && !(pyStartswith content "Error:")

/-- Python `str.splitlines` restricted to `\n`, `\r\n` and `\r` boundaries. -/
def pySplitlines : List Char → List (List Char)
  | [] => []
  | '\r' :: '\n' :: t => [] :: pySplitlines t
  | '\r' :: t => [] :: pySplitlines t
  | '\n' :: t => [] :: pySplitlines t
  | c :: t =>
    match pySplitlines t with
    | [] => [[c]]
    | p :: ps => (c :: p) :: ps

/-- Python `s.split("  ")` (non-regex split on two spaces, leftmost-first). -/
def pySplitDoubleSpace : List Char → List (List Char)
  | [] => [[]]
  | ' ' :: ' ' :: rest => [] :: pySplitDoubleSpace rest
  | c :: t =>
    match pySplitDoubleSpace t with
    | [] => [[c]]
    | p :: ps => (c :: p) :: ps

/-- `re.match(r%[\d.]+\s%, line)`: one or more digits/dots then a space
character.  (Digits/dots and spaces are disjoint, so the greedy scan is
exact.) -/
def matchesNumberedItem (l : List Char) : Bool :=
  let pre := l.takeWhile (fun c => c.isDigit || c == '.')
  !pre.isEmpty &&
    (match l.drop pre.length with
     | c :: _ => isPySpace c
     | [] => false)

/-- `re.match` on the bullet class of line 152 (the source file literally
contains the three mojibake characters of a misdecoded bullet). -/
def matchesBulletItem (l : List Char) : Bool :=
  match l with
  | c :: c2 :: _ => (c == '-' || c == 'â' || c == '€' || c == '¢' || c == '*') && isPySpace c2
  | _ => false

/-- `html_to_markdown.py` lines 139-158: re-tag one line of the collapsed
text. -/
def formatLine (l : List Char) : List Char :=
  if (pyTrimL l).isEmpty then []
  else if l.length < 80 && !(l.getLast? == some ':') && !matchesNumberedItem l then
    (if l.length < 30 then "## ".toList ++ l else "### ".toList ++ l)
  else if matchesNumberedItem l || matchesBulletItem l then l
  else if l.getLast? == some ':' then "### ".toList ++ l
  else l

def joinLines (ls : List (List Char)) : List Char :=
  match ls with
  | [] => []
  | [x] => x
  | x :: xs => x ++ '\n' :: joinLines xs

/-- `html_to_markdown.py` lines 127-160: collapse the text extracted by
BeautifulSoup (strip each line, split on double spaces, drop empties) and
re-tag the resulting lines with markdown headings. -/
def fallback_format (text : String) : String :=
  let ls := pySplitlines text.toList
  let chunks := (ls.map (fun line => (pySplitDoubleSpace (pyTrimL line)).map pyTrimL)).flatten
  let collapsed := joinLines (chunks.filter (fun c => !c.isEmpty))
  let lines := pySplitlines collapsed
  String.mk (joinLines (lines.map formatLine))

/-- `html_to_markdown.py` lines 94-169, `fallback_html_to_markdown`: fetch
the page directly (`fetch`), extract its text with BeautifulSoup (`soup`),
format it; every failure path returns the explicit error-marker string
`"Error converting {url}: {e}"` — the function never raises. -/
def fallback_html_to_markdown (url : String) (fetch : FetchResult)
    (soup : Except String String) : String :=
  match fetch with
  | .ok _ =>
    match soup with
    | .ok text => fallback_format text
    | .error e => "Error converting " ++ url ++ ": " ++ e
  | .reqError e => "Error converting " ++ url ++ ": " ++ e
  | .otherError e => "Error converting " ++ url ++ ": " ++ e

/-- The external outcomes one call of `convert_to_markdown` can observe:
the primary Jina fetch, and (if needed) the fallback's direct fetch and
BeautifulSoup extraction. -/
structure ConvertEnv where
  primary : FetchResult
  fallbackFetch : FetchResult
  fallbackSoup : Except String String
deriving Repr

/-- `html_to_markdown.py` line 78 condition failed, or the Jina request
raised: the primary path yields no usable content. -/
def primary_failed (env : ConvertEnv) : Bool :=
  match env.primary with
  | .ok content => !jina_ok content
  | .reqError _ => true
  | .otherError _ => true

/-- The fallback path, too, can produce nothing but the error marker. -/
def fallback_failed (env : ConvertEnv) : Bool :=
  match env.fallbackFetch, env.fallbackSoup with
  | .ok _, .ok _ => false
  | .ok _, .error _ => true
  | .reqError _, _ => true
  | .otherError _, _ => true

/-- `html_to_markdown.py` lines 37-92, `convert_to_markdown`: return the
Jina content when it is non-empty and does not start with `"Error:"`;
otherwise (error content, request failure after retries, or any unexpected
exception) call `fallback_html_to_markdown` — reached from exactly one call
site, executed at most once.  The second component counts the fallback
invocations.  The result type `String × Nat` (total) embeds the guarantee
that conversion never raises. -/
def convert_to_markdown (url : String) (env : ConvertEnv) : String × Nat :=
  match env.primary with
  | .ok content =>
    if jina_ok content then (content, 0)
    else (fallback_html_to_markdown url env.fallbackFetch env.fallbackSoup, 1)
  | .reqError _ => (fallback_html_to_markdown url env.fallbackFetch env.fallbackSoup, 1)
  | .otherError _ => (fallback_html_to_markdown url env.fallbackFetch env.fallbackSoup, 1)

/-! ## The crawl (`scrape.py` lines 257-544)

The browser is external: a `World` maps each URL to the `Page` Selenium
would render there (`none` = `driver.get` raises, which line 531 catches,
abandoning the branch), gives the classification oracle, and gives — per
URL / per markdown chunk — the outcome of `convert_to_markdown` and of the
extraction oracle's parsed answer.  The `CrawlState` carries the closure
variables `visited` and `all_job_postings`, plus two observation lists that
record the calls the crawl makes: `trace` (one entry per `driver.get`) and
`converted` (one entry per `convert_to_markdown` call).

Python's recursion is embedded with a `fuel` argument that
`scrape_website` instantiates with `max_depth`; since every recursive call
increments `depth` exactly once as it decrements `fuel`, `fuel` is
`max_depth - depth` throughout and the `fuel = 0` case coincides with the
`depth >= max_depth` early return of line 387. -/

structure Anchor where
  href : Option String
  text : String
deriving DecidableEq, Repr

structure Iframe where
  src : Option String
  switchOk : Bool
  links : List Anchor
deriving Repr

structure Page where
  iframes : List Iframe
  footerHrefs : List String
  headerHrefs : List String
  navHrefs : List String
  anchors : List Anchor
deriving Repr

structure World where
  pages : String → Option Page
  classifyOracle : String → Except String String
  convert : String → String
  extractParse : String → Except String Json

structure CrawlState where
  visited : List String
  all_job_postings : List Json
  trace : List String
  converted : List String

/-- `scrape.py` lines 441-472: the union of footer, header and nav hrefs. -/
def ignored_links (page : Page) : List String :=
  page.footerHrefs ++ page.headerHrefs ++ page.navHrefs

/-- `scrape.py` lines 423-434: enumerate an iframe document's anchors and
keep the fragment-stripped hrefs that are same-domain, unvisited, `http*`
and classified as job links.  The `urlparse` call of line 430 can raise (the
iframe's `except` keeps the links appended so far and drops the rest). -/
def iframe_candidate_links (w : World) (domain : String) (visited : List String) :
    List Anchor → List String
  | [] => []
  | link :: rest =>
    match link.href with
    | none => iframe_candidate_links w domain visited rest
    | some href =>
      if href = "" then iframe_candidate_links w domain visited rest
      else
        let clean_href := remove_fragment href
        match urlparse_netloc clean_href with
        | .error _ => []
        | .ok netloc =>
          if netloc = domain ∧ clean_href ∉ visited ∧ pyStartswith clean_href "http" = true then
            if is_job_posting_link w.classifyOracle (.ok link.text link.href) then
              clean_href :: iframe_candidate_links w domain visited rest
            else iframe_candidate_links w domain visited rest
          else iframe_candidate_links w domain visited rest

/-- `scrape.py` lines 410-438: process one iframe.  A non-empty, unvisited
`src` is first added to `visited`; then (if `switch_to.frame` does not
raise) its content is converted and extracted immediately and its internal
links are appended to the candidate list.  There is no same-origin check on
`src` itself. -/
def iframeStep (w : World) (domain : String) (acc : CrawlState × List String)
    (ifr : Iframe) : CrawlState × List String :=
  let st := acc.1
  let cands := acc.2
  match ifr.src with
  | none => (st, cands)
  | some src =>
    if src ≠ "" ∧ src ∉ st.visited then
      let st1 := { st with visited := src :: st.visited }
      if ifr.switchOk then
        let markdown_content := w.convert src
        let job_data := extract_job_postings [w.extractParse markdown_content]
        let st2 := { st1 with
          converted := st1.converted ++ [src],
          all_job_postings := st1.all_job_postings ++ job_data }
        (st2, cands ++ iframe_candidate_links w domain st2.visited ifr.links)
      else (st1, cands)
    else (st, cands)

/-- `scrape.py` lines 409-438: the iframe loop. -/
def iframePhase (w : World) (domain : String) (st : CrawlState)
    (iframes : List Iframe) : CrawlState × List String :=
  iframes.foldl (iframeStep w domain) (st, [])

/-- `scrape.py` lines 477-497: the main-document link loop.  Per anchor:
skip missing/empty hrefs, strip the fragment, `urlparse` the cleaned href
(line 489 — a raise here propagates to the page handler at line 531:
`.error`), detect the apply/submit signal on the lowered stripped text, and
keep same-domain, non-ignored, `http*`, unvisited hrefs that the classifier
accepts.  Returns the kept hrefs in document order and the apply flag. -/
def main_link_scan (w : World) (domain : String) (visited ignored : List String) :
    List Anchor → Bool → Except Unit (List String × Bool)
  | [], apply_found => .ok ([], apply_found)
  | link :: rest, apply_found =>
    match link.href with
    | none => main_link_scan w domain visited ignored rest apply_found
    | some href =>
      if href = "" then main_link_scan w domain visited ignored rest apply_found
      else
        let link_text := pyLower (pyStrip link.text)
        let clean_href := remove_fragment href
        match urlparse_netloc clean_href with
        | .error _ => .error ()
        | .ok netloc =>
          let apply_found :=
            apply_found || strContains link_text "apply" || strContains link_text "submit"
          if netloc = domain ∧ clean_href ∉ ignored ∧ pyStartswith clean_href "http" = true
              ∧ clean_href ∉ visited then
            if is_job_posting_link w.classifyOracle (.ok link.text link.href) then
              match main_link_scan w domain visited ignored rest apply_found with
              | .error e => .error e
              | .ok (cs, af) => .ok (clean_href :: cs, af)
            else main_link_scan w domain visited ignored rest apply_found
          else main_link_scan w domain visited ignored rest apply_found

/-- `scrape.py` lines 408-497 as one step: iframe phase, then main link
scan against the updated visited set.  Returns the state after the iframe
phase and either `.error` (the page handler catches, keeping that state) or
the full candidate list (iframe candidates first, as appended) with the
apply flag. -/
def page_scan (w : World) (domain : String) (st : CrawlState) (page : Page) :
    CrawlState × Except Unit (List String × Bool) :=
  let ip := iframePhase w domain st page.iframes
  match main_link_scan w domain ip.1.visited (ignored_links page) page.anchors false with
  | .error e => (ip.1, .error e)
  | .ok (mc, af) => (ip.1, .ok (ip.2 ++ mc, af))

/-- `scrape.py` line 500: `valid_job_posting_links[:max_breadth]`. -/
def retained_links (cands : List String) (max_breadth : Nat) : List String :=
  cands.take max_breadth

/-- `scrape.py` lines 527-529: mark each retained link visited, then recurse
on it at `depth + 1` (`rec` is the recursive call, one fuel level down). -/
def follow_links (rec : String → Nat → CrawlState → CrawlState) (depth : Nat) :
    List String → CrawlState → CrawlState
  | [], st => st
  | link_url :: rest, st =>
    let st1 := { st with visited := link_url :: st.visited }
    follow_links rec depth rest (rec link_url (depth + 1) st1)

/-- `scrape.py` lines 384-532, `recurse_scrape`. -/
def recurse_scrape (w : World) (max_depth max_breadth : Nat) (domain : String) :
    Nat → String → Nat → CrawlState → CrawlState
  | 0, _, _, st => st
  | fuel + 1, url, depth, st =>
    if max_depth ≤ depth then st
    else
      let st := { st with trace := st.trace ++ [url] }
      match w.pages url with
      | none => st
      | some page =>
        let ps := page_scan w domain st page
        let st1 := ps.1
        match ps.2 with
        | .error _ => st1
        | .ok (cands, apply_link_found) =>
          let valid_job_posting_links := retained_links cands max_breadth
          if valid_job_posting_links = [] ∧ apply_link_found = false then st1
          else
            let st2 :=
              if apply_link_found then
                let markdown_content := w.convert url
                let job_data := extract_job_postings [w.extractParse markdown_content]
                { st1 with
                  converted := st1.converted ++ [url],
                  all_job_postings := st1.all_job_postings ++ job_data }
              else st1
            follow_links (fun u d s => recurse_scrape w max_depth max_breadth domain fuel u d s)
              depth valid_job_posting_links st2

/-- The optional parameters of `scrape_website` with their defaults from its
signature, `scrape.py` line 257:
`def scrape_website(start_url, max_depth=2, max_breadth=10, headless=True, timeout=60)`.
`headless` and `timeout` only configure the browser session and do not
influence the pure crawl. -/
structure ScrapeArgs where
  max_depth : Nat := 2
  max_breadth : Nat := 10
  headless : Bool := true
  timeout : Nat := 60
deriving DecidableEq, Repr

/-- `scrape.py` lines 257-544, `scrape_website`: compute the domain of the
start URL (`""` if parsing raises), add the start URL to `visited` (line
536) and recurse from depth 0.  Browser-session creation failure (which
returns an empty DataFrame before any navigation) is not modelled. -/
def scrape_website (w : World) (start_url : String) (args : ScrapeArgs) : CrawlState :=
  let domain := domainOf start_url
  let st0 : CrawlState :=
    { visited := [start_url], all_job_postings := [], trace := [], converted := [] }
  recurse_scrape w args.max_depth args.max_breadth domain args.max_depth start_url 0 st0

/-- `config.py` lines 81-96, the scraping-related defaults of
`SCRAPING_CONFIG` (this dictionary is not consulted by `scrape_website`). -/
structure ScrapingConfig where
  default_headless : Bool
  default_max_depth : Nat
  default_max_breadth : Nat
  default_retry_count : Nat
  default_timeout : Nat
deriving DecidableEq, Repr

def SCRAPING_CONFIG : ScrapingConfig :=
  { default_headless := true
    default_max_depth := 4
    default_max_breadth := 17
    default_retry_count := 2
    default_timeout := 60 }

/-! ## Concrete crawl environments used by the theorems below -/

/-- An oracle that classifies every link as a job link. -/
def yesOracle : String → Except String String := fun _ => .ok "YES"

/-- An extraction-parse outcome that always fails (no postings). -/
def noParse : String → Except String Json := fun _ => .error "JSONDecodeError"

/-- An anchor with text `"job"` (no apply/submit signal) and the given href. -/
def jobAnchor (h : String) : Anchor := { href := some h, text := "job" }

/-- A page with no iframes and no footer/header/nav links. -/
def plainPage (anchors : List Anchor) : Page :=
  { iframes := [], footerHrefs := [], headerHrefs := [], navHrefs := [],
    anchors := anchors }

/-- A fully canonical JobPosting record. -/
def samplePosting : Json :=
  .obj [("title", .str "T"), ("description", .str "D"),
        ("salary_range", .str "S"), ("responsibilities", .str "R"),
        ("location", .str "L"), ("qualification", .str "Q")]

/-- Start page carrying the same job href in two distinct anchors. -/
def dupLinkWorld : World :=
  { pages := fun u =>
      if u = "http://a.com/s" then
        some (plainPage [jobAnchor "http://a.com/j", jobAnchor "http://a.com/j"])
      else none
    classifyOracle := yesOracle
    convert := fun _ => ""
    extractParse := noParse }

/-- Start page whose only content is a cross-origin iframe. -/
def crossIframeWorld : World :=
  { pages := fun u =>
      if u = "http://a.com/s" then
        some { iframes := [{ src := some "http://b.com/f", switchOk := true, links := [] }],
               footerHrefs := [], headerHrefs := [], navHrefs := [], anchors := [] }
      else none
    classifyOracle := yesOracle
    convert := fun _ => "MD"
    extractParse := fun _ => .ok (.arr [samplePosting]) }

/-- A linear chain of job pages: `s → j1 → j2 → j3 → j4`. -/
def chainWorld : World :=
  { pages := fun u =>
      if u = "http://a.com/s" then some (plainPage [jobAnchor "http://a.com/j1"])
      else if u = "http://a.com/j1" then some (plainPage [jobAnchor "http://a.com/j2"])
      else if u = "http://a.com/j2" then some (plainPage [jobAnchor "http://a.com/j3"])
      else if u = "http://a.com/j3" then some (plainPage [jobAnchor "http://a.com/j4"])
      else none
    classifyOracle := yesOracle
    convert := fun _ => ""
    extractParse := noParse }

/-- Start page with two distinct job links. -/
def twoLinkWorld : World :=
  { pages := fun u =>
      if u = "http://a.com/s" then
        some (plainPage [jobAnchor "http://a.com/j1", jobAnchor "http://a.com/j2"])
      else none
    classifyOracle := yesOracle
    convert := fun _ => ""
    extractParse := noParse }

/-! ## Claims -/

/-- **C1** (code bug).  The claim states that no normalized URL is navigated
to more than once in a crawl, even when the same URL occurs as the href of
several anchors on one page.  The code violates this: the enumeration
filter of line 495 checks `clean_href not in visited`, but the follow loop
of lines 527-529 recurses unconditionally, so a URL enqueued twice (two
anchors with the same href) is navigated twice.  Evaluated at such a page:
the navigation trace is `[s, j, j]`, with `j` navigated twice. -/
theorem c1_duplicate_navigation :
    (scrape_website dupLinkWorld "http://a.com/s" {}).trace
      = ["http://a.com/s", "http://a.com/j", "http://a.com/j"]
    ∧ (scrape_website dupLinkWorld "http://a.com/s" {}).trace.count "http://a.com/j" = 2 := by
  constructor <;> rfl

/-- **C2**, counterexample.  An oracle answer the extractor accepts — the
valid JSON list `[{"title": "Engineer"}]` — yields a JobPosting record with
a single key: `extract_job_postings` passes parsed objects through without
adding the missing canonical keys. -/
theorem c2_missing_keys_counterexample :
    extract_job_postings [.ok (.arr [.obj [("title", .str "Engineer")]])]
      = [.obj [("title", .str "Engineer")]]
    ∧ spec_canonical_posting (.obj [("title", .str "Engineer")]) = false := by
  constructor <;> rfl

/-- **C2** (corrected).  The extractor emits the oracle's parsed objects
unchanged, so every emitted record has exactly the six canonical keys with
string values precisely when every accepted oracle answer already has that
shape; the code itself neither adds missing keys nor defaults them to the
empty string. -/
theorem c2_canonical_iff_oracle_canonical :
    ∀ (chunks : List (Except String Json)),
      (∀ j, Except.ok j ∈ chunks → response_canonical j = true) →
      (extract_job_postings chunks).all spec_canonical_posting = true := by
  intro chunks hc
  induction chunks with
  | nil => rfl
  | cons c rest ih =>
    have hrest := ih (fun j hj => hc j (List.mem_cons_of_mem _ hj))
    have hstep : (json_loads_postings c).all spec_canonical_posting = true := by
      match c with
      | .error _ => rfl
      | .ok j =>
        have hj := hc j (List.mem_cons_self _ _)
        match j with
        | .null => rfl
        | .bool _ => rfl
        | .num _ => rfl
        | .str _ => rfl
        | .obj kvs =>
          simp only [json_loads_postings, List.all_cons, List.all_nil, Bool.and_true]
          simpa [response_canonical] using hj
        | .arr elems =>
          simpa [json_loads_postings, response_canonical] using hj
    simp only [extract_job_postings, List.map_cons, List.flatten_cons, List.all_append]
    simp only [extract_job_postings] at hrest
    rw [hstep, hrest]
    rfl

/-- **C2**, witness for the corrected claim: a canonical oracle answer
yields only canonical records. -/
theorem c2_canonical_witness :
    (extract_job_postings [.ok (.arr [samplePosting])]).all spec_canonical_posting = true :=
  c2_canonical_iff_oracle_canonical [.ok (.arr [samplePosting])]
    (by
      intro j hj
      rw [List.mem_singleton] at hj
      injection hj with h
      subst h
      rfl)

/-- **C3** (confirmed).  The classifier returns `true` exactly when the
link had text or an href (so the oracle was consulted at all) and the
oracle's completion, stripped and upper-cased, is the token `YES`; it
returns `false` for every oracle failure (`call_openai_api` turns a raised
exception into `""`), and for a stale or otherwise unreadable link — and it
is a total `Bool`-valued function, so classification never raises out of
the per-link call. -/
theorem c3_classifier_fail_closed :
    ∀ (t : String) (h : Option String) (oracle : String → Except String String) (m : String),
      (is_job_posting_link oracle (.ok t h) = true ↔
        (¬(pyStrip t = "" ∧ h.getD "" = "")
          ∧ pyUpper (pyStrip (call_openai_api
              (oracle (link_prompt (pyStrip t) (h.getD ""))))) = "YES"))
      ∧ is_job_posting_link (fun _ => .error m) (.ok t h) = false
      ∧ is_job_posting_link oracle .stale = false
      ∧ is_job_posting_link oracle (.exn m) = false := by
  intro t h oracle m
  refine ⟨?_, ?_, rfl, rfl⟩
  · simp only [is_job_posting_link]
    by_cases hc : pyStrip t = "" ∧ h.getD "" = ""
    · simp [hc]
    · simp [hc]
  · simp only [is_job_posting_link]
    by_cases hc : pyStrip t = "" ∧ h.getD "" = ""
    · simp [hc]
    · simp only [hc, if_false, call_openai_api]
      rfl

/-- **C10** (confirmed).  A link whose stripped text is empty and whose
href is `None` or `""` is rejected before the prompt is built: the result
is `false` for every oracle whatsoever, so no remote call can influence
(or be observed by) the classification. -/
theorem c10_empty_link_short_circuit :
    ∀ (t : String) (h : Option String) (oracle : String → Except String String),
      pyStrip t = "" → (h = none ∨ h = some "") →
      is_job_posting_link oracle (.ok t h) = false := by
  intro t h oracle ht hh
  rcases hh with rfl | rfl <;> simp [is_job_posting_link, ht]

/-- **C10**, witness: whitespace text and an absent href defeat even an
oracle that always answers `YES`. -/
theorem c10_witness :
    is_job_posting_link (fun _ => .ok "YES") (.ok "  " none) = false :=
  c10_empty_link_short_circuit "  " none (fun _ => .ok "YES") rfl (Or.inl rfl)

/-- **C4** (confirmed).  `convert_to_markdown` is a total function into
`String × Nat` (conversion never raises and the caller always receives a
string); whenever the primary path fails — request failure after all
retries, an unexpected exception, empty content, or content starting with
the `"Error:"` marker — the fallback is invoked exactly once and its output
becomes the result; and when the fallback also fails the result is the
explicit error-marker string `"Error converting {url}: {e}"`. -/
theorem c4_converter_never_raises :
    ∀ (url : String) (env : ConvertEnv),
      (primary_failed env = true →
        (convert_to_markdown url env).2 = 1
        ∧ (convert_to_markdown url env).1
            = fallback_html_to_markdown url env.fallbackFetch env.fallbackSoup)
      ∧ (primary_failed env = false →
        (convert_to_markdown url env).2 = 0)
      ∧ (primary_failed env = true → fallback_failed env = true →
        ∃ e, (convert_to_markdown url env).1 = "Error converting " ++ url ++ ": " ++ e) := by
  intro url env
  obtain ⟨p, ff, fs⟩ := env
  refine ⟨?_, ?_, ?_⟩
  · intro hp
    cases p with
    | ok content =>
      simp only [primary_failed, Bool.not_eq_true'] at hp
      simp [convert_to_markdown, hp]
    | reqError e => exact ⟨rfl, rfl⟩
    | otherError e => exact ⟨rfl, rfl⟩
  · intro hp
    cases p with
    | ok content =>
      simp only [primary_failed, Bool.not_eq_false'] at hp
      simp [convert_to_markdown, hp]
    | reqError e => simp [primary_failed] at hp
    | otherError e => simp [primary_failed] at hp
  · intro hp hf
    have hres : (convert_to_markdown url ⟨p, ff, fs⟩).1
        = fallback_html_to_markdown url ff fs := by
      cases p with
      | ok content =>
        simp only [primary_failed, Bool.not_eq_true'] at hp
        simp [convert_to_markdown, hp]
      | reqError e => rfl
      | otherError e => rfl
    rw [hres]
    cases ff with
    | ok body =>
      cases fs with
      | ok text => simp [fallback_failed] at hf
      | error e => exact ⟨e, rfl⟩
    | reqError e => exact ⟨e, rfl⟩
    | otherError e => exact ⟨e, rfl⟩

/-- **C4**, witness: with the Jina request failing after retries and the
direct fetch failing too, the fallback runs once and the caller receives
the error-marker string. -/
theorem c4_witness :
    (convert_to_markdown "http://x.com" ⟨.reqError "boom", .reqError "down", .error "soup"⟩).2 = 1
    ∧ ∃ e, (convert_to_markdown "http://x.com"
        ⟨.reqError "boom", .reqError "down", .error "soup"⟩).1
        = "Error converting " ++ "http://x.com" ++ ": " ++ e :=
  ⟨((c4_converter_never_raises "http://x.com"
      ⟨.reqError "boom", .reqError "down", .error "soup"⟩).1 rfl).1,
    (c4_converter_never_raises "http://x.com"
      ⟨.reqError "boom", .reqError "down", .error "soup"⟩).2.2 rfl rfl⟩

/-- **C8**, counterexample.  On a four-deep chain of job pages, the crawl
invoked with all optional parameters omitted navigates only two pages — the
behaviour of `max_depth = 2` — while the claimed defaults
`max_depth = 4, max_breadth = 17` would navigate four. -/
theorem c8_defaults_counterexample :
    (scrape_website chainWorld "http://a.com/s" {}).trace
      = ["http://a.com/s", "http://a.com/j1"]
    ∧ (scrape_website chainWorld "http://a.com/s" ⟨4, 17, true, 60⟩).trace
      = ["http://a.com/s", "http://a.com/j1", "http://a.com/j2", "http://a.com/j3"]
    ∧ (["http://a.com/s", "http://a.com/j1"] : List String)
      ≠ ["http://a.com/s", "http://a.com/j1", "http://a.com/j2", "http://a.com/j3"] := by
  refine ⟨rfl, rfl, by decide⟩

/-- **C8** (corrected).  Omitting the optional parameters runs the crawl
with the signature defaults `max_depth = 2`, `max_breadth = 10`,
`timeout = 60` of `scrape_website`; the values 4, 17 and 60 are the
`SCRAPING_CONFIG` defaults (matching the UI sliders), which the function's
signature does not consult. -/
theorem c8_signature_defaults :
    ∀ (w : World) (start_url : String),
      scrape_website w start_url {} = scrape_website w start_url ⟨2, 10, true, 60⟩
      ∧ ({} : ScrapeArgs).max_depth = 2
      ∧ ({} : ScrapeArgs).max_breadth = 10
      ∧ ({} : ScrapeArgs).timeout = 60
      ∧ SCRAPING_CONFIG.default_max_depth = 4
      ∧ SCRAPING_CONFIG.default_max_breadth = 17
      ∧ SCRAPING_CONFIG.default_timeout = 60 := by
  intro w s
  exact ⟨rfl, rfl, rfl, rfl, rfl, rfl, rfl⟩

/-! ## Helper lemmas about the crawl -/

/-- `scrape.py` line 387: at `depth >= max_depth` the call returns with the
state untouched (no navigation, no marking, no extraction). -/
theorem recurse_scrape_depth_ge (w : World) (md mb : Nat) (dom : String)
    (fuel : Nat) (url : String) (depth : Nat) (st : CrawlState) (h : md ≤ depth) :
    recurse_scrape w md mb dom fuel url depth st = st := by
  cases fuel with
  | zero => rfl
  | succ f => simp [recurse_scrape, if_pos h]

/-- Iframe processing performs no navigation. -/
theorem iframeStep_trace (w : World) (dom : String) (acc : CrawlState × List String)
    (ifr : Iframe) : (iframeStep w dom acc ifr).1.trace = acc.1.trace := by
  rcases acc with ⟨st, cands⟩
  rcases ifr with ⟨src, sw, links⟩
  cases src with
  | none => rfl
  | some s =>
    simp only [iframeStep]
    split
    · cases sw <;> rfl
    · rfl

theorem iframePhase_foldl_trace (w : World) (dom : String) (ifrs : List Iframe) :
    ∀ acc : CrawlState × List String,
      (ifrs.foldl (iframeStep w dom) acc).1.trace = acc.1.trace := by
  induction ifrs with
  | nil => intro acc; rfl
  | cons i rest ih =>
    intro acc
    rw [List.foldl_cons, ih, iframeStep_trace]

theorem iframePhase_trace (w : World) (dom : String) (st : CrawlState)
    (ifrs : List Iframe) : (iframePhase w dom st ifrs).1.trace = st.trace :=
  iframePhase_foldl_trace w dom ifrs (st, [])

theorem page_scan_fst_trace (w : World) (dom : String) (st : CrawlState) (page : Page) :
    (page_scan w dom st page).1.trace = st.trace := by
  simp only [page_scan]
  split
  · exact iframePhase_trace w dom st page.iframes
  · exact iframePhase_trace w dom st page.iframes

/-- Following links leaves the trace unchanged when the recursive calls do
(the retained links are still marked visited). -/
theorem follow_links_trace_pres (rec : String → Nat → CrawlState → CrawlState)
    (depth : Nat) (links : List String)
    (h : ∀ l s, (rec l (depth + 1) s).trace = s.trace) :
    ∀ st, (follow_links rec depth links st).trace = st.trace := by
  induction links with
  | nil => intro st; rfl
  | cons l rest ih =>
    intro st
    simp only [follow_links]
    rw [ih, h]

/-- Following links appends exactly one navigation per retained link when
each recursive call navigates exactly its own URL. -/
theorem follow_links_trace_app (rec : String → Nat → CrawlState → CrawlState)
    (depth : Nat) (links : List String)
    (h : ∀ l s, (rec l (depth + 1) s).trace = s.trace ++ [l]) :
    ∀ st, (follow_links rec depth links st).trace = st.trace ++ links := by
  induction links with
  | nil => intro st; simp [follow_links]
  | cons l rest ih =>
    intro st
    simp only [follow_links]
    rw [ih, h]
    simp

/-- A call at the last level before the bound (`max_depth = depth + 1`,
positive fuel) navigates exactly its own URL: every deeper call returns
immediately. -/
theorem recurse_scrape_last_level_trace (w : World) (md mb : Nat) (dom : String)
    (fuel : Nat) (url : String) (depth : Nat) (st : CrawlState)
    (hd : md = depth + 1) :
    (recurse_scrape w md mb dom (fuel + 1) url depth st).trace = st.trace ++ [url] := by
  have hlt : ¬ md ≤ depth := by omega
  simp only [recurse_scrape, if_neg hlt]
  cases hpg : w.pages url with
  | none => simp [hpg]
  | some page =>
    simp only [hpg]
    have hscan := page_scan_fst_trace w dom { st with trace := st.trace ++ [url] } page
    split
    · exact hscan
    · rename_i cands af heq
      split
      · exact hscan
      · rw [follow_links_trace_pres]
        · split
          · exact hscan
          · exact hscan
        · intro l s
          rw [recurse_scrape_depth_ge w md mb dom fuel l (depth + 1) s (by omega)]

/-- **C5** (confirmed).  The crawl terminates for every `max_depth ≥ 1`
because every call at `depth ≥ max_depth` returns immediately with the
state (hence the navigation trace) untouched — the Lean embedding is
total by structural recursion, with `fuel = max_depth - depth` maintained
throughout; and with `max_depth = 1` the orchestrator navigates exactly the
start page, for every world. -/
theorem c5_depth_bound_termination :
    (∀ (w : World) (md mb : Nat) (dom : String) (fuel : Nat) (url : String)
        (depth : Nat) (st : CrawlState), md ≤ depth →
        recurse_scrape w md mb dom fuel url depth st = st)
    ∧ ∀ (w : World) (mb : Nat) (start_url : String),
        (scrape_website w start_url ⟨1, mb, true, 60⟩).trace = [start_url] := by
  refine ⟨recurse_scrape_depth_ge, ?_⟩
  intro w mb s
  simp only [scrape_website]
  rw [recurse_scrape_last_level_trace w 1 mb (domainOf s) 0 s 0 _ rfl]
  rfl

/-- **C5**, witness: a call at `depth = 2 ≥ max_depth = 1` is the identity
on a concrete state, and the depth-1 crawl of the chain world navigates
only its start page. -/
theorem c5_witness :
    recurse_scrape chainWorld 1 10 "a.com" 3 "http://a.com/j1" 2 ⟨[], [], [], []⟩
      = ⟨[], [], [], []⟩
    ∧ (scrape_website chainWorld "http://a.com/s" ⟨1, 10, true, 60⟩).trace
      = ["http://a.com/s"] :=
  ⟨c5_depth_bound_termination.1 chainWorld 1 10 "a.com" 3 "http://a.com/j1" 2
      ⟨[], [], [], []⟩ (by decide),
    c5_depth_bound_termination.2 chainWorld 10 "http://a.com/s"⟩

/-- One unfolding step of the crawl: at a page whose scan succeeds, the
trace grows by the page itself followed by one navigation per retained
link, provided each recursive call navigates exactly its own URL. -/
theorem recurse_scrape_step_trace (w : World) (md mb : Nat) (dom : String)
    (fuel : Nat) (url : String) (depth : Nat) (st : CrawlState) (page : Page)
    (st1 : CrawlState) (cands : List String) (af : Bool)
    (hlt : ¬ md ≤ depth)
    (hpg : w.pages url = some page)
    (hps : page_scan w dom { st with trace := st.trace ++ [url] } page
      = (st1, .ok (cands, af)))
    (hrec : ∀ l s', (recurse_scrape w md mb dom fuel l (depth + 1) s').trace
      = s'.trace ++ [l]) :
    (recurse_scrape w md mb dom (fuel + 1) url depth st).trace
      = st.trace ++ url :: retained_links cands mb := by
  have hst1 : st1.trace = st.trace ++ [url] := by
    have := page_scan_fst_trace w dom { st with trace := st.trace ++ [url] } page
    rw [hps] at this
    exact this
  simp only [recurse_scrape, if_neg hlt, hpg, hps]
  split
  · rename_i hempty
    rw [hst1, hempty.1]
  · rw [follow_links_trace_app _ depth (retained_links cands mb) hrec]
    split
    · rw [hst1]; simp
    · rw [hst1]; simp

/-- **C6** (confirmed).  Whenever the start page's scan yields more
candidates than `max_breadth`, the crawl (at `max_depth = 2`, where each
followed link is itself navigated but recurses no further) follows exactly
`max_breadth` links — the first `max_breadth` in the order they were
encountered (iframe candidates first, then document order), with no
reordering: the navigation trace is the start URL followed by precisely
`retained_links cands max_breadth = cands.take max_breadth`. -/
theorem c6_first_max_breadth_links_followed :
    ∀ (w : World) (start_url : String) (b : Nat) (page : Page) (st1 : CrawlState)
      (cands : List String) (af : Bool),
      w.pages start_url = some page →
      page_scan w (domainOf start_url)
          { visited := [start_url], all_job_postings := [],
            trace := [start_url], converted := [] } page
        = (st1, .ok (cands, af)) →
      b < cands.length →
      (scrape_website w start_url ⟨2, b, true, 60⟩).trace
        = start_url :: retained_links cands b
      ∧ (retained_links cands b).length = b := by
  intro w s b page st1 cands af hpg hps hb
  have hlen : (retained_links cands b).length = b := by
    simp only [retained_links, List.length_take]
    omega
  refine ⟨?_, hlen⟩
  have hrec : ∀ l s', (recurse_scrape w 2 b (domainOf s) 1 l (0 + 1) s').trace
      = s'.trace ++ [l] := fun l s' =>
    recurse_scrape_last_level_trace w 2 b (domainOf s) 0 l 1 s' rfl
  exact recurse_scrape_step_trace w 2 b (domainOf s) 1 s 0
    ⟨[s], [], [], []⟩ page st1 cands af (by omega) hpg hps hrec

/-- **C6**, witness: two candidates, `max_breadth = 1` — exactly the first
is followed. -/
theorem c6_witness :
    (scrape_website twoLinkWorld "http://a.com/s" ⟨2, 1, true, 60⟩).trace
      = "http://a.com/s" :: retained_links ["http://a.com/j1", "http://a.com/j2"] 1
    ∧ (retained_links ["http://a.com/j1", "http://a.com/j2"] 1).length = 1 :=
  c6_first_max_breadth_links_followed twoLinkWorld "http://a.com/s" 1
    (plainPage [jobAnchor "http://a.com/j1", jobAnchor "http://a.com/j2"])
    { visited := ["http://a.com/s"], all_job_postings := [],
      trace := ["http://a.com/s"], converted := [] }
    ["http://a.com/j1", "http://a.com/j2"] false rfl rfl (by decide)

/-- A candidate produced by the iframe link enumeration was not in the
visited set the enumeration was run against. -/
theorem iframe_candidate_links_not_mem (w : World) (dom : String)
    (v : List String) (links : List Anchor) :
    ∀ c ∈ iframe_candidate_links w dom v links, c ∉ v := by
  induction links with
  | nil => intro c hc; simp [iframe_candidate_links] at hc
  | cons a rest ih =>
    intro c hc
    rcases a with ⟨href, text⟩
    cases href with
    | none =>
      exact ih c hc
    | some h =>
      simp only [iframe_candidate_links] at hc
      split at hc
      · exact ih c hc
      · split at hc
        · simp at hc
        · split at hc
          · split at hc
            · rename_i hcond _
              rcases List.mem_cons.mp hc with rfl | hmem
              · exact hcond.2.1
              · exact ih c hmem
            · exact ih c hc
          · exact ih c hc

/-- **C7**, counterexample.  The crawl's domain is `a.com`, yet the iframe
with the cross-origin src `http://b.com/f` is converted and extracted: the
code's condition (`scrape.py` line 412) is only `src and src not in
visited`, with no same-origin check on the iframe src itself. -/
theorem c7_cross_origin_iframe_counterexample :
    (scrape_website crossIframeWorld "http://a.com/s" {}).converted = ["http://b.com/f"]
    ∧ (scrape_website crossIframeWorld "http://a.com/s" {}).all_job_postings
      = [samplePosting]
    ∧ urlparse_netloc "http://b.com/f" = .ok "b.com"
    ∧ domainOf "http://a.com/s" = "a.com"
    ∧ ("b.com" : String) ≠ "a.com" :=
  ⟨rfl, rfl, rfl, rfl, by decide⟩

/-- **C7** (corrected).  An iframe is converted and extracted iff its src
is present, non-empty, unvisited and the frame switch succeeds — same-origin
is not required.  Such an iframe is first marked visited, then converted
and extracted immediately, and then its internal links (filtered to
same-domain, unvisited, `http*`, classified) are appended as additional
candidates; because the src is marked before the links are enumerated, an
internal link equal to the iframe's own src is never re-enqueued (last
conjunct).  An iframe with a visited or missing src is skipped entirely. -/
theorem c7_iframe_mark_convert_extract :
    ∀ (w : World) (dom : String) (st : CrawlState) (cands : List String)
      (ifr : Iframe) (s : String),
      (ifr.src = some s → s ≠ "" → s ∉ st.visited → ifr.switchOk = true →
        iframeStep w dom (st, cands) ifr =
          ({ visited := s :: st.visited,
             all_job_postings := st.all_job_postings
               ++ extract_job_postings [w.extractParse (w.convert s)],
             trace := st.trace,
             converted := st.converted ++ [s] },
           cands ++ iframe_candidate_links w dom (s :: st.visited) ifr.links))
      ∧ (ifr.src = some s → s ∈ st.visited →
          iframeStep w dom (st, cands) ifr = (st, cands))
      ∧ (ifr.src = none → iframeStep w dom (st, cands) ifr = (st, cands))
      ∧ (∀ c ∈ iframe_candidate_links w dom (s :: st.visited) ifr.links, c ≠ s) := by
  intro w dom st cands ifr s
  refine ⟨?_, ?_, ?_, ?_⟩
  · intro hsrc hne hnv hsw
    simp [iframeStep, hsrc, hsw, if_pos (And.intro hne hnv)]
  · intro hsrc hv
    have : ¬ (s ≠ "" ∧ s ∉ st.visited) := by
      intro h
      exact h.2 hv
    simp [iframeStep, hsrc, if_neg this]
  · intro hsrc
    simp [iframeStep, hsrc]
  · intro c hc he
    have := iframe_candidate_links_not_mem w dom (s :: st.visited) ifr.links c hc
    exact this (he ▸ List.mem_cons_self s st.visited)

/-- **C7**, witness: the cross-origin iframe of the counterexample world,
processed through `iframeStep`, is marked, converted and extracted. -/
theorem c7_witness :
    iframeStep crossIframeWorld "a.com"
      ({ visited := ["http://a.com/s"], all_job_postings := [],
         trace := ["http://a.com/s"], converted := [] }, [])
      { src := some "http://b.com/f", switchOk := true, links := [] }
    = ({ visited := "http://b.com/f" :: ["http://a.com/s"],
         all_job_postings := [] ++ extract_job_postings
           [crossIframeWorld.extractParse (crossIframeWorld.convert "http://b.com/f")],
         trace := ["http://a.com/s"],
         converted := [] ++ ["http://b.com/f"] },
       [] ++ iframe_candidate_links crossIframeWorld "a.com"
         ("http://b.com/f" :: ["http://a.com/s"]) []) :=
  (c7_iframe_mark_convert_extract crossIframeWorld "a.com"
    { visited := ["http://a.com/s"], all_job_postings := [],
      trace := ["http://a.com/s"], converted := [] } []
    { src := some "http://b.com/f", switchOk := true, links := [] }
    "http://b.com/f").1 rfl (by decide) (by decide) rfl

/-! ## Fragment-stripping: lemmas towards C9

Appending `"#x"` to a URL changes nothing before the fragment: the
lemmas below push the suffix `'#' :: x` through each stage of `urlsplit`
(lstrip, unsafe-byte removal, scheme split, authority split, fragment
split) and conclude that parsing `u ++ "#x"` yields the same scheme,
authority, path and query as parsing `u` — and raises if and only if
parsing `u` raises. -/

theorem pySplitFirst_cons (c a : Char) (l : List Char) :
    pySplitFirst c (a :: l) = if a = c then some ([], l)
      else (pySplitFirst c l).map (fun p => (a :: p.1, p.2)) := by
  by_cases h : a = c
  · simp [pySplitFirst, h]
  · simp only [pySplitFirst, if_neg h]
    cases pySplitFirst c l <;> rfl

theorem pySplitFirst_append (c : Char) (u v : List Char) :
    pySplitFirst c (u ++ v) =
      match pySplitFirst c u with
      | some (a, b) => some (a, b ++ v)
      | none => (pySplitFirst c v).map (fun p => (u ++ p.1, p.2)) := by
  induction u with
  | nil =>
    cases hv : pySplitFirst c v with
    | none => simp [pySplitFirst, hv]
    | some p => simp [pySplitFirst, hv]
  | cons y t ih =>
    rw [List.cons_append, pySplitFirst_cons, pySplitFirst_cons]
    by_cases h : y = c
    · simp only [if_pos h]
    · simp only [if_neg h, ih]
      cases hm : pySplitFirst c t with
      | some p => rcases p with ⟨a, b⟩; rfl
      | none =>
        cases pySplitFirst c v with
        | none => rfl
        | some p => rcases p with ⟨a, b⟩; simp

theorem all_isSchemeChar_append_hash (u p1 : List Char) :
    (u ++ '#' :: p1).all isSchemeChar = false := by
  rw [List.all_append]
  have : ('#' :: p1).all isSchemeChar = false := by
    rw [List.all_cons]
    rw [show isSchemeChar '#' = false from by decide]
    rfl
  rw [this, Bool.and_false]

theorem schemeSplit_append_fragment (u x : List Char) :
    schemeSplit (u ++ '#' :: x) = ((schemeSplit u).1, (schemeSplit u).2 ++ '#' :: x) := by
  simp only [schemeSplit, pySplitFirst_append]
  cases hm : pySplitFirst ':' u with
  | some p =>
    rcases p with ⟨pre, post⟩
    cases pre with
    | nil => rfl
    | cons c0 rest =>
      by_cases hv : c0.isAlpha ∧ (c0 :: rest).all isSchemeChar
      · simp only [if_pos hv]
      · simp only [if_neg hv]
  | none =>
    rw [pySplitFirst_cons]
    simp only [if_neg (by decide : ¬('#' = ':'))]
    cases hx : pySplitFirst ':' x with
    | none => rfl
    | some p =>
      rcases p with ⟨p1, p2⟩
      simp only [Option.map_map, Option.map_some']
      cases u with
      | nil =>
        simp only [List.nil_append]
        rw [if_neg]
        intro hcon
        exact absurd hcon.1 (by decide)
      | cons c t =>
        simp only [List.cons_append]
        rw [if_neg]
        intro hcon
        have := hcon.2
        rw [show c :: (t ++ '#' :: p1) = (c :: t) ++ '#' :: p1 from rfl,
          all_isSchemeChar_append_hash] at this
        exact absurd this (by decide)

theorem take_two_append_fragment (r x : List Char) :
    ((r ++ '#' :: x).take 2 = ['/', '/']) ↔ (r.take 2 = ['/', '/']) := by
  match r with
  | [] => simp
  | [c] => simp
  | c :: d :: t => simp

theorem takeWhile_append_stop (p : Char → Bool) (c : Char) (hc : p c = false)
    (a x : List Char) : ((a ++ c :: x).takeWhile p) = a.takeWhile p := by
  induction a with
  | nil => simp [List.takeWhile_cons, hc]
  | cons y t ih =>
    rw [List.cons_append, List.takeWhile_cons, List.takeWhile_cons]
    cases hy : p y with
    | true => rw [ih]
    | false => rfl

theorem dropWhile_append_stop (p : Char → Bool) (c : Char) (hc : p c = false)
    (a x : List Char) : ((a ++ c :: x).dropWhile p) = a.dropWhile p ++ c :: x := by
  induction a with
  | nil => simp [List.dropWhile_cons, hc]
  | cons y t ih =>
    rw [List.cons_append, List.dropWhile_cons, List.dropWhile_cons]
    cases hy : p y with
    | true => simpa using ih
    | false => simp

theorem splitFragment_append_fst (r x : List Char) :
    (splitFragment (r ++ '#' :: x)).1 = (splitFragment r).1 := by
  simp only [splitFragment, pySplitFirst_append]
  cases hm : pySplitFirst '#' r with
  | some p => rcases p with ⟨a, b⟩; rfl
  | none =>
    rw [pySplitFirst_cons]
    simp

theorem take_two_shape (l : List Char) (h : l.take 2 = ['/', '/']) :
    ∃ t, l = '/' :: '/' :: t := by
  match l with
  | [] => simp at h
  | [c] => simp at h
  | c :: d :: t =>
    simp only [List.take] at h
    obtain ⟨rfl, rfl, -⟩ : c = '/' ∧ d = '/' ∧ True := by
      injection h with h1 h2
      injection h2 with h2 h3
      exact ⟨h1, h2, trivial⟩
    exact ⟨t, rfl⟩

theorem urlsplitL_append_fragment (u x : List Char) :
    (urlsplitL (u ++ '#' :: x)).map (fun r => SplitRes.mk r.scheme r.netloc r.path r.query [])
      = (urlsplitL u).map (fun r => SplitRes.mk r.scheme r.netloc r.path r.query []) := by
  have hq : ∀ l, List.filter (fun c => !(c == '\t' || c == '\r' || c == '\n')) ('#' :: l)
      = '#' :: List.filter (fun c => !(c == '\t' || c == '\r' || c == '\n')) l :=
    fun l => rfl
  simp only [urlsplitL]
  rw [dropWhile_append_stop _ '#' (by decide), List.filter_append, hq,
    schemeSplit_append_fragment]
  set url1 := ((u.dropWhile isWhatwgC0OrSpace).filter
    (fun c => !(c == '\t' || c == '\r' || c == '\n'))) with hurl1
  set x1 := (x.filter (fun c => !(c == '\t' || c == '\r' || c == '\n'))) with hx1
  by_cases h2 : (schemeSplit url1).2.take 2 = ['/', '/']
  · rw [if_pos ((take_two_append_fragment _ _).mpr h2), if_pos h2]
    obtain ⟨rest, hrest⟩ := take_two_shape _ h2
    rw [hrest]
    have hdrop : (('/' :: '/' :: rest) ++ '#' :: x1).drop 2 = rest ++ '#' :: x1 := rfl
    have hdrop2 : ('/' :: '/' :: rest).drop 2 = rest := rfl
    simp only [List.cons_append, List.drop_succ_cons, List.drop_zero, splitnetloc,
      takeWhile_append_stop (fun c => !(isNetlocDelim c)) '#' (by decide),
      dropWhile_append_stop (fun c => !(isNetlocDelim c)) '#' (by decide)]
    by_cases hbr : ('[' ∈ rest.takeWhile (fun c => !(isNetlocDelim c))
        ∧ ']' ∉ rest.takeWhile (fun c => !(isNetlocDelim c)))
      ∨ (']' ∈ rest.takeWhile (fun c => !(isNetlocDelim c))
        ∧ '[' ∉ rest.takeWhile (fun c => !(isNetlocDelim c)))
    · rw [if_pos hbr, if_pos hbr]
    · rw [if_neg hbr, if_neg hbr]
      by_cases hbh : ('[' ∈ rest.takeWhile (fun c => !(isNetlocDelim c))
            ∧ ']' ∈ rest.takeWhile (fun c => !(isNetlocDelim c)))
          ∧ check_bracketed_host_ok (partitionBefore ']'
              (partitionAfter '[' (rest.takeWhile (fun c => !(isNetlocDelim c))))) = false
      · rw [if_pos hbh, if_pos hbh]
      · rw [if_neg hbh, if_neg hbh]
        by_cases hcn : checknetloc_ok (rest.takeWhile (fun c => !(isNetlocDelim c))) = false
        · rw [if_pos hcn, if_pos hcn]
        · rw [if_neg hcn, if_neg hcn]
          simp only [Except.map, splitFragment_append_fst]
  · rw [if_neg (fun hc => h2 ((take_two_append_fragment _ _).mp hc)), if_neg h2]
    rw [if_neg (by decide : ¬(checknetloc_ok [] = false)),
      if_neg (by decide : ¬(checknetloc_ok [] = false))]
    simp only [Except.map, splitFragment_append_fst]

/-- **C9**, counterexample.  `urlparse` raises `ValueError` on the
unmatched bracket of `"http://["`, and `remove_fragment` then returns its
argument unchanged, so `normalize(u + "#x") ≠ normalize(u)` at
`u = "http://["`, `x = "x"`. -/
theorem c9_bracket_counterexample :
    remove_fragment "http://[" = "http://["
    ∧ remove_fragment ("http://[" ++ "#" ++ "x") = "http://[#x"
    ∧ ("http://[#x" : String) ≠ "http://[" :=
  ⟨rfl, rfl, by decide⟩

/-- **C9** (corrected).  For every URL `u` on which `urlparse` does not
raise a `ValueError` — its raise paths being a mismatched square bracket
in the authority, an invalid bracketed host, and a netloc whose NFKC
normalisation introduces a separator, all embedded in `urlsplitL` — and
every fragment `x`, `remove_fragment (u ++ "#" ++ x) = remove_fragment u`:
every raise condition depends only on the authority, which appending a
fragment leaves unchanged (as it does the scheme, path, params and query),
and `remove_fragment` discards the fragment.  (When `urlparse` raises,
`remove_fragment` returns its argument unchanged and the equation fails,
as the counterexample shows.) -/
theorem c9_fragment_strip (u x : String) (h : urlparse_ok u.toList = true) :
    remove_fragment (u ++ "#" ++ x) = remove_fragment u := by
  obtain ⟨du⟩ := u
  obtain ⟨dx⟩ := x
  have hdata : (String.mk du ++ "#" ++ String.mk dx).toList = du ++ '#' :: dx := by
    show (du ++ ['#']) ++ dx = du ++ '#' :: dx
    rw [List.append_assoc]
    rfl
  cases hu : urlsplitL du with
  | error e =>
    exfalso
    have : urlparse_ok (String.mk du).toList = false := by
      simp [urlparse_ok, hu]
    rw [h] at this
    cases this
  | ok r =>
    have hmain := urlsplitL_append_fragment du dx
    rw [hu] at hmain
    cases hv : urlsplitL (du ++ '#' :: dx) with
    | error e =>
      rw [hv] at hmain
      simp [Except.map] at hmain
    | ok r2 =>
      rw [hv] at hmain
      simp only [Except.map, Except.ok.injEq, SplitRes.mk.injEq] at hmain
      obtain ⟨hs, hn, hp, hq, -⟩ := hmain
      simp only [remove_fragment, hdata]
      have htl : (String.mk du).toList = du := rfl
      rw [htl]
      simp only [urlparseL, hu, hv, hs, hn, hp, hq]
      by_cases hcond : String.mk r.scheme ∈ uses_params ∧ ';' ∈ r.path
      · rw [if_pos hcond, if_pos hcond]
      · rw [if_neg hcond, if_neg hcond]

/-- **C9**, witness: a well-formed URL with a fragment appended collapses
to the same normalized form. -/
theorem c9_witness :
    remove_fragment ("https://example.com/page" ++ "#" ++ "sec")
      = remove_fragment "https://example.com/page" :=
  c9_fragment_strip "https://example.com/page" "sec" rfl
